import Mathlib

/-!
Verification of the AusLaw hybrid retrieval layer and the AustLII proxy route.

The retrieval core lives in `src/database/migration_rag.sql` (the `hybrid_search`
and `get_parent_content` SQL functions); the proxy route is the Next.js handler
in `src/unnamed/part_002`.  The shallow embedding below translates those
functions over explicit list-valued tables.  Operators supplied by the store
(pgvector's `<=>` cosine-distance operator, Postgres's
`websearch_to_tsquery`/`@@` matching and `ts_rank` scoring, the platform URL
parser and HTTP fetch) are model parameters: the repository consumes them as
external primitives, so theorems quantify over them.

Where the SQL leaves an order unspecified (tie order inside `ROW_NUMBER`, the
row order of a `FULL OUTER JOIN`), the embedding fixes one admissible
deterministic execution: stable sorting that preserves table order on ties, and
vector-leg rows followed by unmatched keyword-leg rows.
-/

/-- Row of `legislation_documents` (`migration_rag.sql`); only the columns read
by `hybrid_search` are modelled, plus the primary key. -/
structure Document where
  id : Nat
  citation : String
  jurisdiction : String
  source_url : String
deriving DecidableEq

/-- Row of `legislation_chunks` (`migration_rag.sql`).  `embedding` is the
nullable `vector(1536)` column, modelled as an optional rational vector;
`created_at` is a creation-order stamp.  The `metadata`/`content_tsv` columns
are not modelled (`content_tsv` is a generated view of `content`, consumed
only through the full-text primitives, which are parameters here). -/
structure Chunk where
  id : Nat
  document_id : Nat
  parent_chunk_id : Option Nat
  content : String
  embedding : Option (List ℚ)
  chunk_type : String
  chunk_index : Nat
  token_count : Option Nat
  created_at : Nat
deriving DecidableEq

/-- The `EXISTS (SELECT 1 FROM legislation_chunks child WHERE
child.parent_chunk_id = c.id)` subquery of `hybrid_search`. -/
def hasChildren (chunks : List Chunk) (c : Chunk) : Bool :=
  chunks.any (fun child => decide (child.parent_chunk_id = some c.id))

/-- The eligibility condition shared by both legs of `hybrid_search`:
`c.chunk_type = 'child' OR (c.chunk_type = 'parent' AND NOT EXISTS (...))`. -/
def eligibleChunk (chunks : List Chunk) (c : Chunk) : Bool :=
  decide (c.chunk_type = "child") ||
    (decide (c.chunk_type = "parent") && !(hasChildren chunks c))

/-- The filter condition `(filter_jurisdiction IS NULL OR d.jurisdiction =
filter_jurisdiction)` of `hybrid_search`. -/
def jurisdictionOk (filterJ : Option String) (d : Document) : Bool :=
  match filterJ with
  | none => true
  | some j => decide (d.jurisdiction = j)

/-- Candidate rows of the `vector_results` CTE before ordering and `LIMIT`:
the join of eligible chunks having a non-null embedding with their document,
paired with the cosine distance `c.embedding <=> query_embedding` (the
pgvector operator is the parameter `dist`). -/
def vectorCandidate1 (dist : List ℚ → List ℚ → ℚ) (query_embedding : List ℚ)
    (chunks : List Chunk) (docs : List Document) (filterJ : Option String)
    (c : Chunk) : Option (Chunk × Document × ℚ) :=
  match c.embedding with
  | none => none
  | some e =>
    if eligibleChunk chunks c then
      match docs.find? (fun d => decide (d.id = c.document_id)) with
      | some d =>
        if jurisdictionOk filterJ d then some (c, d, dist e query_embedding) else none
      | none => none
    else none

/-- The candidate rows of the `vector_results` CTE, one per table row passing
its `WHERE` clause and `JOIN`. -/
def vectorCandidates (dist : List ℚ → List ℚ → ℚ) (query_embedding : List ℚ)
    (chunks : List Chunk) (docs : List Document) (filterJ : Option String) :
    List (Chunk × Document × ℚ) :=
  chunks.filterMap (vectorCandidate1 dist query_embedding chunks docs filterJ)

/-- Output row shape shared by the two CTEs of `hybrid_search`: chunk and
document columns plus the `ROW_NUMBER()` rank and the leg's score
(`1 - distance` similarity for the vector leg, `ts_rank` for the keyword
leg). -/
structure LegRow where
  id : Nat
  document_id : Nat
  parent_chunk_id : Option Nat
  content : String
  chunk_type : String
  citation : String
  jurisdiction : String
  source_url : String
  rank : Nat
  score : ℚ
deriving DecidableEq

/-- Attach consecutive `ROW_NUMBER()` ranks starting at `rank` to the
ordered candidate list and project the output columns of a CTE. -/
def legRowsFrom (scoreOf : ℚ → ℚ) : Nat → List (Chunk × Document × ℚ) → List LegRow
  | _, [] => []
  | rank, p :: rest =>
    ⟨p.1.id, p.1.document_id, p.1.parent_chunk_id, p.1.content, p.1.chunk_type,
     p.2.1.citation, p.2.1.jurisdiction, p.2.1.source_url, rank, scoreOf p.2.2⟩ ::
      legRowsFrom scoreOf (rank + 1) rest

/-- Attach 1-based `ROW_NUMBER()` ranks to the ordered, limited candidate
list and project the output columns of a CTE. -/
def legRowsOf (top : List (Chunk × Document × ℚ)) (scoreOf : ℚ → ℚ) : List LegRow :=
  legRowsFrom scoreOf 1 top

/-- The `vector_results` CTE of `hybrid_search`: candidates ordered by
ascending distance (`ORDER BY c.embedding <=> query_embedding`, stable on
ties), limited to `match_count`, with rank and `1 - distance` similarity. -/
def vectorLeg (dist : List ℚ → List ℚ → ℚ) (query_embedding : List ℚ)
    (chunks : List Chunk) (docs : List Document) (filterJ : Option String)
    (match_count : Nat) : List LegRow :=
  legRowsOf
    ((List.insertionSort (fun a b : Chunk × Document × ℚ => a.2.2 ≤ b.2.2)
        (vectorCandidates dist query_embedding chunks docs filterJ)).take match_count)
    (fun dv => 1 - dv)

/-- Candidate rows of the `keyword_results` CTE before ordering and `LIMIT`:
eligible chunks whose `content_tsv` matches `websearch_to_tsquery('english',
query_text)` (the Postgres `@@` test is the parameter `tsMatch`), joined with
their document and paired with their `ts_rank` score (parameter `tsRank`). -/
def keywordCandidate1 (tsMatch : String → String → Bool) (tsRank : String → String → ℚ)
    (query_text : String) (chunks : List Chunk) (docs : List Document)
    (filterJ : Option String) (c : Chunk) : Option (Chunk × Document × ℚ) :=
  if tsMatch c.content query_text then
    if eligibleChunk chunks c then
      match docs.find? (fun d => decide (d.id = c.document_id)) with
      | some d =>
        if jurisdictionOk filterJ d then some (c, d, tsRank c.content query_text) else none
      | none => none
    else none
  else none

/-- The candidate rows of the `keyword_results` CTE, one per table row passing
its `WHERE` clause and `JOIN`. -/
def keywordCandidates (tsMatch : String → String → Bool) (tsRank : String → String → ℚ)
    (query_text : String) (chunks : List Chunk) (docs : List Document)
    (filterJ : Option String) : List (Chunk × Document × ℚ) :=
  chunks.filterMap (keywordCandidate1 tsMatch tsRank query_text chunks docs filterJ)

/-- The `keyword_results` CTE of `hybrid_search`: candidates ordered by
descending `ts_rank` (stable on ties), limited to `match_count`, with rank
and score. -/
def keywordLeg (tsMatch : String → String → Bool) (tsRank : String → String → ℚ)
    (query_text : String) (chunks : List Chunk) (docs : List Document)
    (filterJ : Option String) (match_count : Nat) : List LegRow :=
  legRowsOf
    ((List.insertionSort (fun a b : Chunk × Document × ℚ => b.2.2 ≤ a.2.2)
        (keywordCandidates tsMatch tsRank query_text chunks docs filterJ)).take match_count)
    (fun s => s)

/-- Output row of `hybrid_search` (its `RETURNS TABLE` clause). -/
structure OutRow where
  chunk_id : Nat
  document_id : Nat
  parent_chunk_id : Option Nat
  content : String
  chunk_type : String
  citation : String
  jurisdiction : String
  source_url : String
  vector_rank : Option Nat
  keyword_rank : Option Nat
  vector_similarity : Option ℚ
  keyword_score : Option ℚ
deriving DecidableEq

/-- Joined output row built from a vector-leg row and its optional keyword
match; the `COALESCE` pairs take the vector side first. -/
def vRowToOut (v : LegRow) (k : Option LegRow) : OutRow :=
  ⟨v.id, v.document_id, v.parent_chunk_id, v.content, v.chunk_type, v.citation,
   v.jurisdiction, v.source_url, some v.rank, k.map (fun kr => kr.rank),
   some v.score, k.map (fun kr => kr.score)⟩

/-- Joined output row for a keyword-leg row with no vector match. -/
def kRowToOut (k : LegRow) : OutRow :=
  ⟨k.id, k.document_id, k.parent_chunk_id, k.content, k.chunk_type, k.citation,
   k.jurisdiction, k.source_url, none, some k.rank, none, some k.score⟩

/-- The `hybrid_search` SQL function: the two CTE legs joined by
`FULL OUTER JOIN ... ON v.id = k.id` with `COALESCE`d columns.  The function
body has no final `ORDER BY`; the embedding emits vector-leg rows (in leg
order) followed by the unmatched keyword-leg rows. -/
def hybrid_search (dist : List ℚ → List ℚ → ℚ) (tsMatch : String → String → Bool)
    (tsRank : String → String → ℚ) (query_embedding : List ℚ) (query_text : String)
    (filter_jurisdiction : Option String) (match_count : Nat)
    (chunks : List Chunk) (docs : List Document) : List OutRow :=
  let v := vectorLeg dist query_embedding chunks docs filter_jurisdiction match_count
  let k := keywordLeg tsMatch tsRank query_text chunks docs filter_jurisdiction match_count
  v.map (fun vr => vRowToOut vr (k.find? (fun kr => decide (kr.id = vr.id)))) ++
    (k.filter (fun kr => (v.find? (fun vr => decide (vr.id = kr.id))).isNone)).map kRowToOut

/-- The `get_parent_content` SQL function: look up the chunk's
`parent_chunk_id`; when it is null return the chunk's own content, otherwise
the parent chunk's content.  A lookup that finds no row yields `none` (SQL
`NULL`). -/
def get_parent_content (chunks : List Chunk) (child_chunk_id : Nat) : Option String :=
  let parent_id := (chunks.find? (fun c => decide (c.id = child_chunk_id))).bind
    (fun c => c.parent_chunk_id)
  match parent_id with
  | none => (chunks.find? (fun c => decide (c.id = child_chunk_id))).map (fun c => c.content)
  | some pid => (chunks.find? (fun c => decide (c.id = pid))).map (fun c => c.content)

/-- Modelled from the spec: the backend Hybrid Retriever's Reciprocal Rank
Fusion constant (the retriever that fuses `hybrid_search` rows is backend
code not under `src/`).  Spec: "contribution = 1/(k + r) with a fixed
constant k (k=60 is the reference value)". -/
def rrfK : ℚ := 60

/-- Modelled from the spec: the RRF contribution of one leg, `1/(k + r)` when
the chunk is present in the leg at rank `r`, and `0` when the chunk is
outside that leg's window. -/
def rrfContrib (k : ℚ) : Option Nat → ℚ
  | none => 0
  | some r => 1 / (k + (r : ℚ))

/-- Modelled from the spec: the fused score of a joined row, the sum of the
RRF contributions across the legs the chunk is present in. -/
def fusedScore (k : ℚ) (r : OutRow) : ℚ :=
  rrfContrib k r.vector_rank + rrfContrib k r.keyword_rank

/-- Creation-order key of an output row: the `created_at` stamp of the chunk
it came from (used by the fused sort's tie-break). -/
def createdKey (chunks : List Chunk) (r : OutRow) : Nat :=
  ((chunks.find? (fun c => decide (c.id = r.chunk_id))).map (fun c => c.created_at)).getD 0

/-- Modelled from the spec: the order of the fused output, "sort descending
by fused score; ties broken by chunk creation order (stable)". -/
def fuseOrder (k : ℚ) (chunks : List Chunk) (a b : OutRow) : Prop :=
  fusedScore k b < fusedScore k a ∨
    (fusedScore k a = fusedScore k b ∧ createdKey chunks a ≤ createdKey chunks b)

instance (k : ℚ) (chunks : List Chunk) : DecidableRel (fuseOrder k chunks) :=
  fun _ _ => inferInstanceAs (Decidable (_ ∨ _))

/-- Modelled from the spec: the backend retriever's fusion step (not under
`src/`): take the rows produced by `hybrid_search` and sort them descending
by fused RRF score, ties broken by chunk creation order. -/
def search (dist : List ℚ → List ℚ → ℚ) (tsMatch : String → String → Bool)
    (tsRank : String → String → ℚ) (query_embedding : List ℚ) (query_text : String)
    (filter_jurisdiction : Option String) (match_count : Nat)
    (chunks : List Chunk) (docs : List Document) : List OutRow :=
  List.insertionSort (fuseOrder rrfK chunks)
    (hybrid_search dist tsMatch tsRank query_embedding query_text filter_jurisdiction
      match_count chunks docs)

/-- Error taxonomy of the retrieval operation (spec section 7). -/
inductive RetrievalError where
  | invalidQuery
  | retrievalUnavailable
deriving DecidableEq

/-- Modelled from the spec: the backend retrieval operation wrapping
`hybrid_search` (not under `src/`).  Spec: "empty query text/embedding →
fail with InvalidQuery", rejected "before any external call". -/
def searchOperation (dist : List ℚ → List ℚ → ℚ) (tsMatch : String → String → Bool)
    (tsRank : String → String → ℚ) (query_embedding : List ℚ) (query_text : String)
    (filter_jurisdiction : Option String) (match_count : Nat)
    (chunks : List Chunk) (docs : List Document) : Except RetrievalError (List OutRow) :=
  if query_text = "" ∨ query_embedding = [] then Except.error RetrievalError.invalidQuery
  else Except.ok (search dist tsMatch tsRank query_embedding query_text
    filter_jurisdiction match_count chunks docs)

/-- Modelled from the spec: whitespace tokenization used by the keyword
fallback ("OR-semantics tokenization of the query terms"). -/
def orTokens (s : String) : List String :=
  (s.splitOn " ").filter (fun t => decide (t ≠ ""))

/-- Modelled from the spec: OR-semantics match — the content matches when any
query term occurs among its tokens. -/
def orMatch (content query : String) : Bool :=
  (orTokens query).any (fun t => (orTokens content).contains t)

/-- Modelled from the spec: relevance score of the OR fallback — the number
of query terms found in the content. -/
def orRank (content query : String) : ℚ :=
  (((orTokens query).filter (fun t => (orTokens content).contains t)).length : ℚ)

/-- Modelled from the spec: the backend keyword leg with fallback (not under
`src/`): when the store's native query-language parsing of the query yields
no matches, rerun the leg with OR-semantics tokenization. -/
def keywordLegWithFallback (tsMatch : String → String → Bool)
    (tsRank : String → String → ℚ) (query_text : String) (chunks : List Chunk)
    (docs : List Document) (filterJ : Option String) (match_count : Nat) : List LegRow :=
  let native := keywordLeg tsMatch tsRank query_text chunks docs filterJ match_count
  if native.isEmpty then
    keywordLeg orMatch (fun c q => orRank c q) query_text chunks docs filterJ match_count
  else native

/-- Modelled from the spec: the child chunks of one parent chunk produced by
ingestion, ids and ordinals assigned sequencially, each recording the
parent's id. -/
def buildChildren (docId parentId : Nat) (baseId baseIdx : Nat) :
    List String → List Chunk
  | [] => []
  | t :: ts =>
    ⟨baseId, docId, some parentId, t, none, "child", baseIdx, none, baseId⟩ ::
      buildChildren docId parentId (baseId + 1) (baseIdx + 1) ts

/-- Modelled from the spec: the large-document branch of ingestion chunking
(backend code not under `src/`): each parent text becomes a parent chunk
followed by its child chunks, which reference it. -/
def buildParents (splitChild : String → List String) (docId : Nat) :
    Nat → Nat → List String → List Chunk
  | _, _, [] => []
  | baseId, baseIdx, ptxt :: rest =>
    let kids := buildChildren docId baseId (baseId + 1) (baseIdx + 1) (splitChild ptxt)
    ⟨baseId, docId, none, ptxt, none, "parent", baseIdx, none, baseId⟩ ::
      (kids ++ buildParents splitChild docId (baseId + 1 + kids.length)
        (baseIdx + 1 + kids.length) rest)

/-- Modelled from the spec: ingestion-time chunking (backend code not under
`src/`).  Spec: "if character length < 10,000, emit a single parent chunk
containing the full text (chunk_type=parent, no children)", otherwise split
into parent chunks (~2000-token target) each split into child chunks
(~500-token target) recording their parent reference.  The two splitters are
parameters, since the spec fixes only approximate targets. -/
def chunkDocument (splitParent splitChild : String → List String) (docId baseId : Nat)
    (text : String) : List Chunk :=
  if text.length < 10000 then
    [⟨baseId, docId, none, text, none, "parent", 0, none, baseId⟩]
  else
    buildParents splitChild docId baseId 0 (splitParent text)

/-- Parsed URL as the proxy route sees it: the `protocol` and `hostname`
fields of the platform `URL` object. -/
structure ParsedUrl where
  protocol : String
  hostname : String
deriving DecidableEq

/-- The `ALLOWED_HOSTS` constant of the proxy route (`src/unnamed/part_002`). -/
def ALLOWED_HOSTS : List String := ["www.austlii.edu.au", "austlii.edu.au"]

/-- The `AUSTLII_SEARCH_URL` constant of the proxy route. -/
def AUSTLII_SEARCH_URL : String := "https://www.austlii.edu.au/cgi-bin/sinosrch.cgi"

/-- The `isAustliiUrl` helper of the proxy route; `parseUrl` is the platform
URL parser (`new URL(...)`), with `none` modelling a thrown parse error. -/
def isAustliiUrl (parseUrl : String → Option ParsedUrl) (url : String) : Bool :=
  match parseUrl url with
  | none => false
  | some p =>
    (decide (p.protocol = "http:") || decide (p.protocol = "https:")) &&
      ALLOWED_HOSTS.contains p.hostname

/-- Result of an upstream `fetch`; `url` is the post-redirect final URL
(`response.url`). -/
structure FetchResult where
  url : String
  html : String
  status : Nat
deriving DecidableEq

/-- Request body of the proxy route after JSON parsing: the `search` and
`fetch` actions, or any other action value (rejected with 400). -/
inductive ReqBody where
  | searchAct (params : List (String × String))
  | fetchAct (url : String)
  | otherAct
deriving DecidableEq

/-- Response emitted by the route: its HTTP status, optional `error` field,
optional proxied `html`, and the upstream status when content is proxied. -/
structure RouteResponse where
  status : Nat
  error : Option String
  html : Option String
  upstream : Option Nat
deriving DecidableEq

/-- Observable outcome of one `POST` invocation: the response, whether the
request body was read (`req.json()` reached), and the URLs fetched
upstream. -/
structure PostOutcome where
  response : RouteResponse
  bodyRead : Bool
  fetched : List String
deriving DecidableEq

/-- Serialization of search params (`new URLSearchParams(...)`; the precise
percent-encoding is a platform detail outside the route). -/
def encodeParams (ps : List (String × String)) : String :=
  String.intercalate "&" (ps.map (fun p => p.1 ++ "=" ++ p.2))

/-- Body dispatch of the proxy route's `POST` (the `try` block): the `search`
action proxies to the AustLII search endpoint; the `fetch` action applies the
`isAustliiUrl` allowlist before fetching and re-checks the post-redirect
final hostname; other actions get 400.  A `none` from `fetchFn` or from
parsing the final URL models a thrown error, caught as a 502. -/
def handleBody (parseUrl : String → Option ParsedUrl)
    (fetchFn : String → Option FetchResult) : ReqBody → RouteResponse × List String
  | ReqBody.searchAct ps =>
    let url := AUSTLII_SEARCH_URL ++ "?" ++ encodeParams ps
    (match fetchFn url with
     | none => (⟨502, some "Proxy error", none, none⟩, [url])
     | some resp => (⟨200, none, some resp.html, some resp.status⟩, [url]))
  | ReqBody.fetchAct url =>
    if isAustliiUrl parseUrl url then
      match fetchFn url with
      | none => (⟨502, some "Proxy error", none, none⟩, [url])
      | some resp =>
        match parseUrl resp.url with
        | none => (⟨502, some "Proxy error", none, none⟩, [url])
        | some fu =>
          if ALLOWED_HOSTS.contains fu.hostname then
            (⟨200, none, some resp.html, some resp.status⟩, [url])
          else
            (⟨403, some "Redirect to non-AustLII host blocked", none, none⟩, [url])
    else
      (⟨403, some "URL not allowed", none, none⟩, [])
  | ReqBody.otherAct => (⟨400, some "Invalid action", none, none⟩, [])

/-- The route's `POST` handler.  `proxySecret` is the `AUSTLII_PROXY_SECRET`
environment value (`none` = unset; the JS falsy test `!PROXY_SECRET` also
trips on the empty string), `headerSecret` the `x-proxy-secret` header
(`none` = absent), `body` the parsed JSON body (`none` = parse failure). -/
def POST (proxySecret headerSecret : Option String) (body : Option ReqBody)
    (parseUrl : String → Option ParsedUrl) (fetchFn : String → Option FetchResult) :
    PostOutcome :=
  match proxySecret with
  | none => ⟨⟨500, some "Proxy not configured", none, none⟩, false, []⟩
  | some ps =>
    if ps = "" then ⟨⟨500, some "Proxy not configured", none, none⟩, false, []⟩
    else if headerSecret ≠ some ps then ⟨⟨401, some "Unauthorized", none, none⟩, false, []⟩
    else
      match body with
      | none => ⟨⟨400, some "Invalid JSON", none, none⟩, true, []⟩
      | some b =>
        let r := handleBody parseUrl fetchFn b
        ⟨r.1, true, r.2⟩

theorem legRowsFrom_map_id (scoreOf : ℚ → ℚ) :
    ∀ (n : Nat) (top : List (Chunk × Document × ℚ)),
      (legRowsFrom scoreOf n top).map (fun r => r.id) = top.map (fun p => p.1.id)
  | _, [] => rfl
  | n, p :: rest => by
    simp only [legRowsFrom, List.map_cons, legRowsFrom_map_id scoreOf (n + 1) rest]

theorem legRowsFrom_map_score (scoreOf : ℚ → ℚ) :
    ∀ (n : Nat) (top : List (Chunk × Document × ℚ)),
      (legRowsFrom scoreOf n top).map (fun r => r.score) = top.map (fun p => scoreOf p.2.2)
  | _, [] => rfl
  | n, p :: rest => by
    simp only [legRowsFrom, List.map_cons, legRowsFrom_map_score scoreOf (n + 1) rest]

theorem legRowsFrom_length (scoreOf : ℚ → ℚ) :
    ∀ (n : Nat) (top : List (Chunk × Document × ℚ)),
      (legRowsFrom scoreOf n top).length = top.length
  | _, [] => rfl
  | n, p :: rest => by
    simp only [legRowsFrom, List.length_cons, legRowsFrom_length scoreOf (n + 1) rest]

theorem mem_legRowsFrom {scoreOf : ℚ → ℚ} {r : LegRow} {n : Nat}
    {top : List (Chunk × Document × ℚ)} (h : r ∈ legRowsFrom scoreOf n top) :
    ∃ p, p ∈ top ∧ r.id = p.1.id ∧ r.document_id = p.1.document_id ∧
      r.parent_chunk_id = p.1.parent_chunk_id ∧ r.content = p.1.content ∧
      r.chunk_type = p.1.chunk_type ∧ r.citation = p.2.1.citation ∧
      r.jurisdiction = p.2.1.jurisdiction ∧ r.score = scoreOf p.2.2 := by
  induction top generalizing n with
  | nil => cases h
  | cons p rest ih =>
    rw [legRowsFrom] at h
    rcases List.mem_cons.mp h with h1 | h2
    · subst h1
      exact ⟨p, List.mem_cons_self _ _, rfl, rfl, rfl, rfl, rfl, rfl, rfl, rfl⟩
    · obtain ⟨q, hq, hf⟩ := ih h2
      exact ⟨q, List.mem_cons_of_mem _ hq, hf⟩

theorem vectorCandidate1_eq_some {dist : List ℚ → List ℚ → ℚ} {qe : List ℚ}
    {chunks : List Chunk} {docs : List Document} {filterJ : Option String}
    {c : Chunk} {p : Chunk × Document × ℚ}
    (h : vectorCandidate1 dist qe chunks docs filterJ c = some p) :
    p.1 = c ∧ p.1.embedding.isSome = true ∧ eligibleChunk chunks c = true ∧
      docs.find? (fun d => decide (d.id = c.document_id)) = some p.2.1 ∧
      jurisdictionOk filterJ p.2.1 = true := by
  unfold vectorCandidate1 at h
  cases he : c.embedding with
  | none => rw [he] at h; cases h
  | some e =>
    simp only [he] at h
    by_cases helig : eligibleChunk chunks c = true
    · rw [if_pos helig] at h
      cases hfind : docs.find? (fun d => decide (d.id = c.document_id)) with
      | none => simp only [hfind] at h; cases h
      | some d =>
        simp only [hfind] at h
        by_cases hjur : jurisdictionOk filterJ d = true
        · rw [if_pos hjur, Option.some_inj] at h
          subst h
          exact ⟨rfl, by rw [he]; rfl, helig, rfl, hjur⟩
        · rw [if_neg hjur] at h; cases h
    · rw [if_neg helig] at h; cases h

theorem keywordCandidate1_eq_some {tsMatch : String → String → Bool}
    {tsRank : String → String → ℚ} {qt : String} {chunks : List Chunk}
    {docs : List Document} {filterJ : Option String} {c : Chunk}
    {p : Chunk × Document × ℚ}
    (h : keywordCandidate1 tsMatch tsRank qt chunks docs filterJ c = some p) :
    p.1 = c ∧ tsMatch c.content qt = true ∧ eligibleChunk chunks c = true ∧
      docs.find? (fun d => decide (d.id = c.document_id)) = some p.2.1 ∧
      jurisdictionOk filterJ p.2.1 = true ∧ p.2.2 = tsRank c.content qt := by
  unfold keywordCandidate1 at h
  by_cases hm : tsMatch c.content qt = true
  · rw [if_pos hm] at h
    by_cases helig : eligibleChunk chunks c = true
    · rw [if_pos helig] at h
      cases hfind : docs.find? (fun d => decide (d.id = c.document_id)) with
      | none => simp only [hfind] at h; cases h
      | some d =>
        simp only [hfind] at h
        by_cases hjur : jurisdictionOk filterJ d = true
        · rw [if_pos hjur, Option.some_inj] at h
          subst h
          exact ⟨rfl, hm, helig, rfl, hjur, rfl⟩
        · rw [if_neg hjur] at h; cases h
    · rw [if_neg helig] at h; cases h
  · rw [if_neg hm] at h; cases h

theorem map_filterMap_sublist {α β γ : Type _} (f : α → Option β) (g : β → γ) (h : α → γ)
    (hfg : ∀ a b, f a = some b → g b = h a) :
    ∀ l : List α, ((l.filterMap f).map g).Sublist (l.map h) := by
  intro l
  induction l with
  | nil => simp
  | cons a t ih =>
    cases hfa : f a with
    | none =>
      simp only [List.filterMap_cons, hfa, List.map_cons]
      exact ih.cons _
    | some b =>
      simp only [List.filterMap_cons, hfa, List.map_cons]
      rw [hfg a b hfa]
      exact ih.cons₂ _

theorem mem_take_insertionSort {α : Type _} (r : α → α → Prop) [DecidableRel r]
    {n : Nat} {l : List α} {x : α} (h : x ∈ (List.insertionSort r l).take n) : x ∈ l :=
  (List.perm_insertionSort r l).mem_iff.mp (List.mem_of_mem_take h)

theorem jurisdictionOk_some {d : Document} {j : String}
    (h : jurisdictionOk (some j) d = true) : d.jurisdiction = j := by
  simpa [jurisdictionOk] using h

theorem eligibleChunk_elim {chunks : List Chunk} {c : Chunk}
    (h : eligibleChunk chunks c = true) :
    c.chunk_type = "child" ∨
      (c.chunk_type = "parent" ∧ ∀ c2 ∈ chunks, c2.parent_chunk_id ≠ some c.id) := by
  simp only [eligibleChunk, Bool.or_eq_true, Bool.and_eq_true, decide_eq_true_eq,
    Bool.not_eq_true', hasChildren, List.any_eq_false, decide_eq_false_iff_not] at h
  exact h

theorem vectorLeg_mem_sound {dist : List ℚ → List ℚ → ℚ} {qe : List ℚ}
    {chunks : List Chunk} {docs : List Document} {filterJ : Option String} {mc : Nat}
    {r : LegRow} (h : r ∈ vectorLeg dist qe chunks docs filterJ mc) :
    ∃ c, c ∈ chunks ∧ r.id = c.id ∧ r.chunk_type = c.chunk_type ∧
      c.embedding.isSome = true ∧ eligibleChunk chunks c = true ∧
      (∀ j, filterJ = some j → r.jurisdiction = j) := by
  obtain ⟨p, hp, hid, _, _, _, hct, _, hjur, _⟩ := mem_legRowsFrom h
  obtain ⟨c, hc, heq⟩ := List.mem_filterMap.mp (mem_take_insertionSort _ hp)
  obtain ⟨hpc, hemb, helig, _, hok⟩ := vectorCandidate1_eq_some heq
  refine ⟨c, hc, by rw [hid, hpc], by rw [hct, hpc], by rw [← hpc]; exact hemb, helig, ?_⟩
  intro j hj
  subst hj
  rw [hjur]
  exact jurisdictionOk_some hok

theorem keywordLeg_mem_sound {tsMatch : String → String → Bool}
    {tsRank : String → String → ℚ} {qt : String} {chunks : List Chunk}
    {docs : List Document} {filterJ : Option String} {mc : Nat} {r : LegRow}
    (h : r ∈ keywordLeg tsMatch tsRank qt chunks docs filterJ mc) :
    ∃ c, c ∈ chunks ∧ r.id = c.id ∧ r.chunk_type = c.chunk_type ∧
      r.content = c.content ∧ tsMatch c.content qt = true ∧
      eligibleChunk chunks c = true ∧ r.score = tsRank c.content qt ∧
      (∀ j, filterJ = some j → r.jurisdiction = j) := by
  obtain ⟨p, hp, hid, _, _, hcont, hct, _, hjur, hscore⟩ := mem_legRowsFrom h
  obtain ⟨c, hc, heq⟩ := List.mem_filterMap.mp (mem_take_insertionSort _ hp)
  obtain ⟨hpc, hm, helig, _, hok, hrank⟩ := keywordCandidate1_eq_some heq
  refine ⟨c, hc, by rw [hid, hpc], by rw [hct, hpc], by rw [hcont, hpc], hm, helig,
    by rw [hscore, hrank], ?_⟩
  intro j hj
  subst hj
  rw [hjur]
  exact jurisdictionOk_some hok

theorem vectorLeg_length_le (dist : List ℚ → List ℚ → ℚ) (qe : List ℚ)
    (chunks : List Chunk) (docs : List Document) (filterJ : Option String) (mc : Nat) :
    (vectorLeg dist qe chunks docs filterJ mc).length ≤ mc := by
  rw [vectorLeg, legRowsOf, legRowsFrom_length]
  exact List.length_take_le _ _

theorem keywordLeg_length_le (tsMatch : String → String → Bool)
    (tsRank : String → String → ℚ) (qt : String) (chunks : List Chunk)
    (docs : List Document) (filterJ : Option String) (mc : Nat) :
    (keywordLeg tsMatch tsRank qt chunks docs filterJ mc).length ≤ mc := by
  rw [keywordLeg, legRowsOf, legRowsFrom_length]
  exact List.length_take_le _ _

/-- C2: every chunk returned by the vector leg or the keyword leg of
`hybrid_search` is eligible — it has `chunk_type = 'child'`, or
`chunk_type = 'parent'` and no chunk in the store references it as parent;
under a jurisdiction filter every returned row carries exactly that
jurisdiction; and each leg returns at most `match_count` rows. -/
theorem hybrid_search_legs_eligible (dist : List ℚ → List ℚ → ℚ)
    (tsMatch : String → String → Bool) (tsRank : String → String → ℚ)
    (qe : List ℚ) (qt : String) (filterJ : Option String) (mc : Nat)
    (chunks : List Chunk) (docs : List Document) :
    (∀ r ∈ vectorLeg dist qe chunks docs filterJ mc,
      (r.chunk_type = "child" ∨
        (r.chunk_type = "parent" ∧ ∀ c ∈ chunks, c.parent_chunk_id ≠ some r.id)) ∧
      ∀ j, filterJ = some j → r.jurisdiction = j) ∧
    (∀ r ∈ keywordLeg tsMatch tsRank qt chunks docs filterJ mc,
      (r.chunk_type = "child" ∨
        (r.chunk_type = "parent" ∧ ∀ c ∈ chunks, c.parent_chunk_id ≠ some r.id)) ∧
      ∀ j, filterJ = some j → r.jurisdiction = j) ∧
    (vectorLeg dist qe chunks docs filterJ mc).length ≤ mc ∧
    (keywordLeg tsMatch tsRank qt chunks docs filterJ mc).length ≤ mc := by
  refine ⟨fun r hr => ?_, fun r hr => ?_, vectorLeg_length_le _ _ _ _ _ _,
    keywordLeg_length_le _ _ _ _ _ _ _⟩
  · obtain ⟨c, hc, hid, hct, _, helig, hjur⟩ := vectorLeg_mem_sound hr
    refine ⟨?_, hjur⟩
    rcases eligibleChunk_elim helig with h1 | ⟨h1, h2⟩
    · exact Or.inl (hct.trans h1)
    · exact Or.inr ⟨hct.trans h1, by rw [hid]; exact h2⟩
  · obtain ⟨c, hc, hid, hct, _, _, helig, _, hjur⟩ := keywordLeg_mem_sound hr
    refine ⟨?_, hjur⟩
    rcases eligibleChunk_elim helig with h1 | ⟨h1, h2⟩
    · exact Or.inl (hct.trans h1)
    · exact Or.inr ⟨hct.trans h1, by rw [hid]; exact h2⟩

/-- Concrete store fixture: a document used by the witnesses. -/
def wDoc : Document := ⟨10, "Residential Tenancies Act 2010 (NSW)", "NSW", "http://legislation.nsw"⟩

/-- Concrete store fixture: an embedded parent chunk with no children. -/
def wChunkA : Chunk := ⟨1, 10, none, "notice period", some [0], "parent", 0, none, 1⟩

/-- Concrete store fixture: a second embedded parent chunk with no children. -/
def wChunkB : Chunk := ⟨2, 10, none, "unrelated", some [1], "parent", 1, none, 2⟩

/-- Concrete store fixture: a chunk with a null embedding. -/
def wChunkN : Chunk := ⟨3, 10, none, "notice period", none, "parent", 2, none, 3⟩

/-- Concrete store fixture: a parent chunk with one child. -/
def wParent : Chunk := ⟨5, 10, none, "parent text", none, "parent", 0, none, 5⟩

/-- Concrete store fixture: the child of `wParent`. -/
def wChild : Chunk := ⟨6, 10, some 5, "child text", none, "child", 1, none, 6⟩

/-- Concrete instantiation of the pgvector distance operator. -/
def wDist : List ℚ → List ℚ → ℚ := fun a _ => a.headD 0

/-- Concrete instantiation of the full-text match primitive. -/
def wMatch : String → String → Bool := fun c q => decide (c = q)

/-- Concrete instantiation of the full-text rank primitive. -/
def wRank : String → String → ℚ := fun _ _ => 1

/-- C1: for every query embedding, query text, optional jurisdiction filter
and limit, the retrieval call returns an ordered list — the rows produced by
`hybrid_search`, sorted descending by the fused score (the sum of the
per-leg RRF contributions of the legs the chunk is present in), with ties
broken by chunk creation order. -/
theorem search_rrf_ordered (dist : List ℚ → List ℚ → ℚ)
    (tsMatch : String → String → Bool) (tsRank : String → String → ℚ)
    (qe : List ℚ) (qt : String) (filterJ : Option String) (mc : Nat)
    (chunks : List Chunk) (docs : List Document) :
    List.Sorted (fuseOrder rrfK chunks)
      (search dist tsMatch tsRank qe qt filterJ mc chunks docs) ∧
    List.Perm (search dist tsMatch tsRank qe qt filterJ mc chunks docs)
      (hybrid_search dist tsMatch tsRank qe qt filterJ mc chunks docs) ∧
    ∀ r ∈ search dist tsMatch tsRank qe qt filterJ mc chunks docs,
      fusedScore rrfK r = rrfContrib rrfK r.vector_rank + rrfContrib rrfK r.keyword_rank := by
  refine ⟨?_, List.perm_insertionSort _ _, fun r _ => rfl⟩
  haveI : IsTotal OutRow (fuseOrder rrfK chunks) := ⟨fun a b => by
    rcases lt_trichotomy (fusedScore rrfK a) (fusedScore rrfK b) with hlt | heq | hgt
    · exact Or.inr (Or.inl hlt)
    · rcases Nat.le_total (createdKey chunks a) (createdKey chunks b) with hk | hk
      · exact Or.inl (Or.inr ⟨heq, hk⟩)
      · exact Or.inr (Or.inr ⟨heq.symm, hk⟩)
    · exact Or.inl (Or.inl hgt)⟩
  haveI : IsTrans OutRow (fuseOrder rrfK chunks) := ⟨fun a b c hab hbc => by
    rcases hab with hab | ⟨hab1, hab2⟩
    · rcases hbc with hbc | ⟨hbc1, hbc2⟩
      · exact Or.inl (hbc.trans hab)
      · exact Or.inl (hbc1 ▸ hab)
    · rcases hbc with hbc | ⟨hbc1, hbc2⟩
      · exact Or.inl (by rw [hab1]; exact hbc)
      · exact Or.inr ⟨hab1.trans hbc1, le_trans hab2 hbc2⟩⟩
  exact List.sorted_insertionSort _ _

/-- Witness for C1 at a concrete two-chunk store. -/
theorem search_rrf_ordered_witness :
    List.Sorted (fuseOrder rrfK [wChunkA, wChunkB])
      (search wDist wMatch wRank [0] "notice period" none 20 [wChunkA, wChunkB] [wDoc]) :=
  (search_rrf_ordered wDist wMatch wRank [0] "notice period" none 20
    [wChunkA, wChunkB] [wDoc]).1

/-- Witness for C2 at a concrete two-chunk store. -/
theorem hybrid_search_legs_eligible_witness :
    (∀ r ∈ vectorLeg wDist [0] [wChunkA, wChunkB] [wDoc] (some "NSW") 20,
      (r.chunk_type = "child" ∨
        (r.chunk_type = "parent" ∧
          ∀ c ∈ [wChunkA, wChunkB], c.parent_chunk_id ≠ some r.id)) ∧
      ∀ j, (some "NSW" : Option String) = some j → r.jurisdiction = j) :=
  (hybrid_search_legs_eligible wDist wMatch wRank [0] "notice period" (some "NSW") 20
    [wChunkA, wChunkB] [wDoc]).1

/-- C5: parent expansion is idempotent — when the chunk found for the given
id has a null parent reference, `get_parent_content` returns that chunk's own
content; when it has a parent reference, it returns the parent chunk's
content. -/
theorem get_parent_content_spec (chunks : List Chunk) (cid : Nat) (c : Chunk)
    (hfind : chunks.find? (fun x => decide (x.id = cid)) = some c) :
    (c.parent_chunk_id = none → get_parent_content chunks cid = some c.content) ∧
    (∀ pid p, c.parent_chunk_id = some pid →
      chunks.find? (fun x => decide (x.id = pid)) = some p →
      get_parent_content chunks cid = some p.content) := by
  constructor
  · intro hnone
    simp [get_parent_content, hfind, hnone]
  · intro pid p hpid hfp
    simp [get_parent_content, hfind, hpid, hfp]

/-- Witness for C5: both branches at a concrete parent/child store. -/
theorem get_parent_content_witness :
    ([wParent, wChild].find? (fun x => decide (x.id = 5)) = some wParent ∧
      wParent.parent_chunk_id = none ∧
      get_parent_content [wParent, wChild] 5 = some wParent.content) ∧
    ([wParent, wChild].find? (fun x => decide (x.id = 6)) = some wChild ∧
      wChild.parent_chunk_id = some 5 ∧
      get_parent_content [wParent, wChild] 6 = some wParent.content) :=
  ⟨⟨by decide, by decide,
      (get_parent_content_spec [wParent, wChild] 5 wParent (by decide)).1 (by decide)⟩,
    ⟨by decide, by decide,
      (get_parent_content_spec [wParent, wChild] 6 wChild (by decide)).2 5 wParent
        (by decide) (by decide)⟩⟩

/-- C6: the retrieval operation fails with `InvalidQuery` on empty query
text or empty embedding, with a result independent of the store primitives
(so neither search leg is consulted), and on non-empty inputs it succeeds,
never raising `InvalidQuery`. -/
theorem searchOperation_invalid_query (qe : List ℚ) (qt : String)
    (filterJ : Option String) (mc : Nat) (chunks : List Chunk) (docs : List Document) :
    (qt = "" ∨ qe = [] → ∀ (dist : List ℚ → List ℚ → ℚ)
      (tsMatch : String → String → Bool) (tsRank : String → String → ℚ),
      searchOperation dist tsMatch tsRank qe qt filterJ mc chunks docs =
        Except.error RetrievalError.invalidQuery) ∧
    (qt ≠ "" → qe ≠ [] → ∀ (dist : List ℚ → List ℚ → ℚ)
      (tsMatch : String → String → Bool) (tsRank : String → String → ℚ),
      searchOperation dist tsMatch tsRank qe qt filterJ mc chunks docs =
        Except.ok (search dist tsMatch tsRank qe qt filterJ mc chunks docs)) := by
  constructor
  · intro h dist tsMatch tsRank
    rw [searchOperation, if_pos h]
  · intro h1 h2 dist tsMatch tsRank
    rw [searchOperation, if_neg (by tauto)]

/-- Witness for C6: the empty query text is rejected at a concrete store. -/
theorem searchOperation_invalid_query_witness :
    (("" : String) = "" ∨ ([0] : List ℚ) = []) ∧
    searchOperation wDist wMatch wRank [0] "" none 20 [wChunkA] [wDoc] =
      Except.error RetrievalError.invalidQuery :=
  ⟨Or.inl rfl,
    (searchOperation_invalid_query [0] "" none 20 [wChunkA] [wDoc]).1 (Or.inl rfl)
      wDist wMatch wRank⟩

theorem legRowsFrom_pairwise_score {R : ℚ → ℚ → Prop} (scoreOf : ℚ → ℚ)
    (hsc : ∀ x y, R x y → R (scoreOf x) (scoreOf y)) :
    ∀ (n : Nat) {top : List (Chunk × Document × ℚ)},
      List.Pairwise (fun p q : Chunk × Document × ℚ => R p.2.2 q.2.2) top →
      List.Pairwise (fun a b : LegRow => R a.score b.score)
        (legRowsFrom scoreOf n top) := by
  intro n top h
  induction top generalizing n with
  | nil => exact List.Pairwise.nil
  | cons p rest ih =>
    rcases List.pairwise_cons.mp h with ⟨hhead, htail⟩
    rw [legRowsFrom]
    refine List.pairwise_cons.mpr ⟨?_, ih (n + 1) htail⟩
    intro b hb
    obtain ⟨q, hq, _, _, _, _, _, _, _, hscore⟩ := mem_legRowsFrom hb
    rw [hscore]
    exact hsc _ _ (hhead q hq)

theorem keywordLeg_sorted_desc (tsMatch : String → String → Bool)
    (tsRank : String → String → ℚ) (qt : String) (chunks : List Chunk)
    (docs : List Document) (filterJ : Option String) (mc : Nat) :
    List.Pairwise (fun a b : LegRow => b.score ≤ a.score)
      (keywordLeg tsMatch tsRank qt chunks docs filterJ mc) := by
  have hs : List.Sorted (fun a b : Chunk × Document × ℚ => b.2.2 ≤ a.2.2)
      (List.insertionSort (fun a b : Chunk × Document × ℚ => b.2.2 ≤ a.2.2)
        (keywordCandidates tsMatch tsRank qt chunks docs filterJ)) := by
    haveI : IsTotal (Chunk × Document × ℚ) (fun a b => b.2.2 ≤ a.2.2) :=
      ⟨fun a b => le_total b.2.2 a.2.2⟩
    haveI : IsTrans (Chunk × Document × ℚ) (fun a b => b.2.2 ≤ a.2.2) :=
      ⟨fun a b c hab hbc => le_trans hbc hab⟩
    exact List.sorted_insertionSort _ _
  exact legRowsFrom_pairwise_score (R := fun x y => y ≤ x) _ (fun x y h => h) 1
    (List.Pairwise.sublist (List.take_sublist mc _) hs)

/-- C4: the keyword leg of `hybrid_search` ranks the eligible chunk set by
the full-text relevance score against the query text — each returned row is
an eligible matching chunk scored by `ts_rank`, and rows appear in
descending score order — and the retriever falls back to OR-semantics
tokenization of the query terms exactly when the store's native
query-language parsing yields no matches. -/
theorem keyword_leg_ranks_by_relevance (tsMatch : String → String → Bool)
    (tsRank : String → String → ℚ) (qt : String) (chunks : List Chunk)
    (docs : List Document) (filterJ : Option String) (mc : Nat) :
    List.Pairwise (fun a b : LegRow => b.score ≤ a.score)
      (keywordLeg tsMatch tsRank qt chunks docs filterJ mc) ∧
    (∀ r ∈ keywordLeg tsMatch tsRank qt chunks docs filterJ mc,
      ∃ c ∈ chunks, r.content = c.content ∧ tsMatch c.content qt = true ∧
        eligibleChunk chunks c = true ∧ r.score = tsRank c.content qt) ∧
    (keywordLeg tsMatch tsRank qt chunks docs filterJ mc ≠ [] →
      keywordLegWithFallback tsMatch tsRank qt chunks docs filterJ mc =
        keywordLeg tsMatch tsRank qt chunks docs filterJ mc) ∧
    (keywordLeg tsMatch tsRank qt chunks docs filterJ mc = [] →
      keywordLegWithFallback tsMatch tsRank qt chunks docs filterJ mc =
        keywordLeg orMatch (fun c q => orRank c q) qt chunks docs filterJ mc) := by
  refine ⟨keywordLeg_sorted_desc _ _ _ _ _ _ _, fun r hr => ?_, fun hne => ?_, fun he => ?_⟩
  · obtain ⟨c, hc, _, _, hcont, hm, helig, hsc, _⟩ := keywordLeg_mem_sound hr
    exact ⟨c, hc, hcont, hm, helig, hsc⟩
  · rw [keywordLegWithFallback, if_neg (by simpa [List.isEmpty_iff] using hne)]
  · rw [keywordLegWithFallback, if_pos (by simpa [List.isEmpty_iff] using he)]

/-- Witness for C4: with a non-matching native parser the fallback OR leg is
used at a concrete store. -/
theorem keyword_leg_ranks_by_relevance_witness :
    keywordLeg wMatch wRank "zzz" [wChunkA] [wDoc] none 20 = [] ∧
    keywordLegWithFallback wMatch wRank "zzz" [wChunkA] [wDoc] none 20 =
      keywordLeg orMatch (fun c q => orRank c q) "zzz" [wChunkA] [wDoc] none 20 :=
  ⟨by decide,
    (keyword_leg_ranks_by_relevance wMatch wRank "zzz" [wChunkA] [wDoc] none 20).2.2.2
      (by decide)⟩

@[simp] theorem vRowToOut_chunk_id (v : LegRow) (k : Option LegRow) :
    (vRowToOut v k).chunk_id = v.id := rfl

@[simp] theorem vRowToOut_vector_rank (v : LegRow) (k : Option LegRow) :
    (vRowToOut v k).vector_rank = some v.rank := rfl

@[simp] theorem vRowToOut_keyword_rank (v : LegRow) (k : Option LegRow) :
    (vRowToOut v k).keyword_rank = k.map (fun kr => kr.rank) := rfl

@[simp] theorem vRowToOut_vector_similarity (v : LegRow) (k : Option LegRow) :
    (vRowToOut v k).vector_similarity = some v.score := rfl

@[simp] theorem kRowToOut_chunk_id (k : LegRow) : (kRowToOut k).chunk_id = k.id := rfl

@[simp] theorem kRowToOut_vector_rank (k : LegRow) : (kRowToOut k).vector_rank = none := rfl

@[simp] theorem kRowToOut_keyword_rank (k : LegRow) :
    (kRowToOut k).keyword_rank = some k.rank := rfl

@[simp] theorem kRowToOut_vector_similarity (k : LegRow) :
    (kRowToOut k).vector_similarity = none := rfl

theorem vectorLeg_ids_nodup {dist : List ℚ → List ℚ → ℚ} {qe : List ℚ}
    {chunks : List Chunk} {docs : List Document} {filterJ : Option String} {mc : Nat}
    (h : (chunks.map (fun c => c.id)).Nodup) :
    ((vectorLeg dist qe chunks docs filterJ mc).map (fun r => r.id)).Nodup := by
  have h1 : ((vectorCandidates dist qe chunks docs filterJ).map (fun p => p.1.id)).Nodup :=
    List.Nodup.sublist
      (map_filterMap_sublist _ _ _
        (fun c p hp => by rw [(vectorCandidate1_eq_some hp).1]) chunks) h
  have h2 := (((List.perm_insertionSort
      (fun a b : Chunk × Document × ℚ => a.2.2 ≤ b.2.2)
      (vectorCandidates dist qe chunks docs filterJ)).map
        (fun p : Chunk × Document × ℚ => p.1.id)).symm).nodup h1
  have h3 := List.Nodup.sublist
    ((List.take_sublist mc _).map (fun p : Chunk × Document × ℚ => p.1.id)) h2
  rw [vectorLeg, legRowsOf, legRowsFrom_map_id]
  exact h3

theorem keywordLeg_ids_nodup {tsMatch : String → String → Bool}
    {tsRank : String → String → ℚ} {qt : String} {chunks : List Chunk}
    {docs : List Document} {filterJ : Option String} {mc : Nat}
    (h : (chunks.map (fun c => c.id)).Nodup) :
    ((keywordLeg tsMatch tsRank qt chunks docs filterJ mc).map (fun r => r.id)).Nodup := by
  have h1 : ((keywordCandidates tsMatch tsRank qt chunks docs filterJ).map
      (fun p => p.1.id)).Nodup :=
    List.Nodup.sublist
      (map_filterMap_sublist _ _ _
        (fun c p hp => by rw [(keywordCandidate1_eq_some hp).1]) chunks) h
  have h2 := (((List.perm_insertionSort
      (fun a b : Chunk × Document × ℚ => b.2.2 ≤ a.2.2)
      (keywordCandidates tsMatch tsRank qt chunks docs filterJ)).map
        (fun p : Chunk × Document × ℚ => p.1.id)).symm).nodup h1
  have h3 := List.Nodup.sublist
    ((List.take_sublist mc _).map (fun p : Chunk × Document × ℚ => p.1.id)) h2
  rw [keywordLeg, legRowsOf, legRowsFrom_map_id]
  exact h3

theorem length_filter_eq_count_map {α : Type _} (f : α → Nat) (x : Nat) (l : List α) :
    (l.filter (fun a => decide (f a = x))).length = (l.map f).count x := by
  induction l with
  | nil => rfl
  | cons a t ih =>
    by_cases hfa : f a = x
    · rw [List.filter_cons_of_pos (by simpa using hfa), List.map_cons, hfa,
        List.count_cons_self, List.length_cons, ih]
    · rw [List.filter_cons_of_neg (by simpa using hfa), List.map_cons,
        List.count_cons_of_ne (fun hh => hfa hh.symm), ih]

theorem hybrid_search_eq (dist : List ℚ → List ℚ → ℚ) (tsMatch : String → String → Bool)
    (tsRank : String → String → ℚ) (qe : List ℚ) (qt : String)
    (filterJ : Option String) (mc : Nat) (chunks : List Chunk) (docs : List Document) :
    hybrid_search dist tsMatch tsRank qe qt filterJ mc chunks docs =
      (vectorLeg dist qe chunks docs filterJ mc).map
        (fun vr => vRowToOut vr
          ((keywordLeg tsMatch tsRank qt chunks docs filterJ mc).find?
            (fun kr => decide (kr.id = vr.id)))) ++
        ((keywordLeg tsMatch tsRank qt chunks docs filterJ mc).filter
          (fun kr => ((vectorLeg dist qe chunks docs filterJ mc).find?
            (fun vr => decide (vr.id = kr.id))).isNone)).map kRowToOut := rfl

theorem count_one_of_mem_union {v k : List LegRow}
    (hv : (v.map (fun r => r.id)).Nodup) (hk : (k.map (fun r => r.id)).Nodup)
    {x : Nat}
    (hx : x ∈ v.map (fun r => r.id) ∨ x ∈ k.map (fun r => r.id)) :
    ((v.map (fun vr => vRowToOut vr (k.find? (fun kr => decide (kr.id = vr.id)))) ++
      (k.filter (fun kr => (v.find? (fun vr => decide (vr.id = kr.id))).isNone)).map
        kRowToOut).filter (fun r => decide (r.chunk_id = x))).length = 1 := by
  rw [length_filter_eq_count_map, List.map_append, List.map_map, List.map_map]
  have e1 : ((fun r : OutRow => r.chunk_id) ∘ fun vr =>
      vRowToOut vr (k.find? (fun kr => decide (kr.id = vr.id)))) =
        fun vr : LegRow => vr.id := rfl
  have e2 : ((fun r : OutRow => r.chunk_id) ∘ kRowToOut) = fun kr : LegRow => kr.id := rfl
  rw [e1, e2, List.count_append]
  by_cases hxv : x ∈ v.map (fun r => r.id)
  · rw [List.count_eq_one_of_mem hv hxv]
    have hnB : x ∉ (k.filter fun kr =>
        (v.find? (fun vr => decide (vr.id = kr.id))).isNone).map (fun kr => kr.id) := by
      intro hmem
      obtain ⟨kr, hkr, hkrid⟩ := List.mem_map.mp hmem
      obtain ⟨hkrk, hq⟩ := List.mem_filter.mp hkr
      rw [Option.isNone_iff_eq_none, List.find?_eq_none] at hq
      obtain ⟨vr, hvr, hvrid⟩ := List.mem_map.mp hxv
      exact hq vr hvr (by simp [hvrid, hkrid])
    rw [List.count_eq_zero_of_not_mem hnB]
  · have hxk : x ∈ k.map (fun r => r.id) := hx.resolve_left hxv
    rw [List.count_eq_zero_of_not_mem hxv]
    have hBn : ((k.filter fun kr =>
        (v.find? (fun vr => decide (vr.id = kr.id))).isNone).map (fun kr => kr.id)).Nodup :=
      List.Nodup.sublist ((List.filter_sublist k).map (fun kr : LegRow => kr.id)) hk
    obtain ⟨kr, hkrk, hkrid⟩ := List.mem_map.mp hxk
    have hq : (v.find? (fun vr => decide (vr.id = kr.id))).isNone = true := by
      rw [Option.isNone_iff_eq_none, List.find?_eq_none]
      intro vr hvr hdec
      rw [decide_eq_true_eq] at hdec
      exact hxv (List.mem_map.mpr ⟨vr, hvr, hdec.trans hkrid⟩)
    have hmemB : x ∈ (k.filter fun kr =>
        (v.find? (fun vr => decide (vr.id = kr.id))).isNone).map (fun kr => kr.id) :=
      List.mem_map.mpr ⟨kr, List.mem_filter.mpr ⟨hkrk, hq⟩, hkrid⟩
    rw [List.count_eq_one_of_mem hBn hmemB]

theorem join_row_cases {v k : List LegRow} {r : OutRow}
    (hr : r ∈ v.map (fun vr => vRowToOut vr (k.find? (fun kr => decide (kr.id = vr.id)))) ++
      (k.filter (fun kr => (v.find? (fun vr => decide (vr.id = kr.id))).isNone)).map
        kRowToOut) :
    (r.vector_rank.isSome = true ↔ r.chunk_id ∈ v.map (fun r2 => r2.id)) ∧
    (r.keyword_rank.isSome = true ↔ r.chunk_id ∈ k.map (fun r2 => r2.id)) ∧
    (r.chunk_id ∈ v.map (fun r2 => r2.id) ∨ r.chunk_id ∈ k.map (fun r2 => r2.id)) := by
  rcases List.mem_append.mp hr with h | h
  · obtain ⟨vr, hvr, hout⟩ := List.mem_map.mp h
    subst hout
    refine ⟨?_, ?_, Or.inl (List.mem_map.mpr ⟨vr, hvr, rfl⟩)⟩
    · simp only [vRowToOut_vector_rank, vRowToOut_chunk_id, Option.isSome_some, true_iff]
      exact List.mem_map.mpr ⟨vr, hvr, rfl⟩
    · simp only [vRowToOut_keyword_rank, vRowToOut_chunk_id]
      constructor
      · intro hs
        cases hfind : List.find? (fun kr => decide (kr.id = vr.id)) k with
        | none => rw [hfind] at hs; simp at hs
        | some kr =>
          have hkr := List.mem_of_find?_eq_some hfind
          have hid : kr.id = vr.id := by simpa using List.find?_some hfind
          exact List.mem_map.mpr ⟨kr, hkr, hid⟩
      · intro hmem
        obtain ⟨kr, hkr, hid⟩ := List.mem_map.mp hmem
        have hsome : (List.find? (fun kr => decide (kr.id = vr.id)) k).isSome = true := by
          rw [List.find?_isSome]
          exact ⟨kr, hkr, by simp [hid]⟩
        obtain ⟨kr2, hfind⟩ := Option.isSome_iff_exists.mp hsome
        rw [hfind]
        rfl
  · obtain ⟨kr, hkr, hout⟩ := List.mem_map.mp h
    obtain ⟨hkrk, hq⟩ := List.mem_filter.mp hkr
    subst hout
    refine ⟨?_, ?_, Or.inr (List.mem_map.mpr ⟨kr, hkrk, rfl⟩)⟩
    · simp only [kRowToOut_vector_rank, kRowToOut_chunk_id, Option.isSome_none,
        Bool.false_eq_true, false_iff]
      intro hmem
      obtain ⟨vr, hvr, hid⟩ := List.mem_map.mp hmem
      rw [Option.isNone_iff_eq_none, List.find?_eq_none] at hq
      exact hq vr hvr (by simp [hid])
    · simp only [kRowToOut_keyword_rank, kRowToOut_chunk_id, Option.isSome_some, true_iff]
      exact List.mem_map.mpr ⟨kr, hkrk, rfl⟩

/-- C3: each chunk appearing in at least one leg's top-`match_count` window
appears exactly once in the `hybrid_search` output; `vector_rank` is set iff
the chunk is in the vector window and `keyword_rank` iff it is in the
keyword window; a chunk in neither window does not appear; and a leg a chunk
is absent from contributes zero to its fused score. -/
theorem hybrid_search_window_exactness (dist : List ℚ → List ℚ → ℚ)
    (tsMatch : String → String → Bool) (tsRank : String → String → ℚ)
    (qe : List ℚ) (qt : String) (filterJ : Option String) (mc : Nat)
    (chunks : List Chunk) (docs : List Document)
    (h : (chunks.map (fun c => c.id)).Nodup) :
    (∀ x : Nat,
      (x ∈ (vectorLeg dist qe chunks docs filterJ mc).map (fun r => r.id) ∨
        x ∈ (keywordLeg tsMatch tsRank qt chunks docs filterJ mc).map (fun r => r.id)) →
      ((hybrid_search dist tsMatch tsRank qe qt filterJ mc chunks docs).filter
        (fun r => decide (r.chunk_id = x))).length = 1) ∧
    (∀ r ∈ hybrid_search dist tsMatch tsRank qe qt filterJ mc chunks docs,
      (r.vector_rank.isSome = true ↔
        r.chunk_id ∈ (vectorLeg dist qe chunks docs filterJ mc).map (fun r2 => r2.id)) ∧
      (r.keyword_rank.isSome = true ↔
        r.chunk_id ∈ (keywordLeg tsMatch tsRank qt chunks docs filterJ mc).map
          (fun r2 => r2.id)) ∧
      (r.chunk_id ∈ (vectorLeg dist qe chunks docs filterJ mc).map (fun r2 => r2.id) ∨
        r.chunk_id ∈ (keywordLeg tsMatch tsRank qt chunks docs filterJ mc).map
          (fun r2 => r2.id))) ∧
    (∀ r : OutRow, r.vector_rank = none →
      fusedScore rrfK r = rrfContrib rrfK r.keyword_rank) ∧
    (∀ r : OutRow, r.keyword_rank = none →
      fusedScore rrfK r = rrfContrib rrfK r.vector_rank) := by
  refine ⟨?_, ?_, ?_, ?_⟩
  · intro x hx
    rw [hybrid_search_eq]
    exact count_one_of_mem_union (vectorLeg_ids_nodup h) (keywordLeg_ids_nodup h) hx
  · intro r hr
    rw [hybrid_search_eq] at hr
    exact join_row_cases hr
  · intro r hnone
    rw [fusedScore, hnone]
    simp [rrfContrib]
  · intro r hnone
    rw [fusedScore, hnone]
    simp [rrfContrib]

/-- Witness for C3 at a concrete three-chunk store. -/
theorem hybrid_search_window_exactness_witness :
    (([wChunkA, wChunkB, wChunkN].map (fun c => c.id)).Nodup ∧
      1 ∈ (vectorLeg wDist [0] [wChunkA, wChunkB, wChunkN] [wDoc] none 20).map
        (fun r => r.id)) ∧
    ((hybrid_search wDist wMatch wRank [0] "notice period" none 20
        [wChunkA, wChunkB, wChunkN] [wDoc]).filter
      (fun r => decide (r.chunk_id = 1))).length = 1 :=
  ⟨⟨by decide, by decide⟩,
    (hybrid_search_window_exactness wDist wMatch wRank [0] "notice period" none 20
      [wChunkA, wChunkB, wChunkN] [wDoc] (by decide)).1 1 (Or.inl (by decide))⟩

/-- C10: a chunk whose embedding is null never appears in the vector leg of
`hybrid_search` — no output row carrying its id has a non-null `vector_rank`
or `vector_similarity` (it may still enter through the keyword leg). -/
theorem hybrid_search_null_embedding_no_vector (dist : List ℚ → List ℚ → ℚ)
    (tsMatch : String → String → Bool) (tsRank : String → String → ℚ)
    (qe : List ℚ) (qt : String) (filterJ : Option String) (mc : Nat)
    (chunks : List Chunk) (docs : List Document)
    (h : (chunks.map (fun c => c.id)).Nodup) (c : Chunk) (hc : c ∈ chunks)
    (he : c.embedding = none) :
    ∀ r ∈ hybrid_search dist tsMatch tsRank qe qt filterJ mc chunks docs,
      r.chunk_id = c.id → r.vector_rank = none ∧ r.vector_similarity = none := by
  intro r hr hid
  rw [hybrid_search_eq] at hr
  rcases List.mem_append.mp hr with hA | hB
  · obtain ⟨vr, hvr, hout⟩ := List.mem_map.mp hA
    subst hout
    rw [vRowToOut_chunk_id] at hid
    obtain ⟨c2, hc2, hid2, _, hemb, _, _⟩ := vectorLeg_mem_sound hvr
    have hcc : c2 = c :=
      List.inj_on_of_nodup_map h hc2 hc (by rw [← hid2]; exact hid)
    rw [hcc, he] at hemb
    simp at hemb
  · obtain ⟨kr, hkr, hout⟩ := List.mem_map.mp hB
    subst hout
    exact ⟨rfl, rfl⟩

/-- Witness for C10: a null-embedding chunk gets no vector rank yet is
returned through the keyword leg. -/
theorem hybrid_search_null_embedding_no_vector_witness :
    (([wChunkN, wChunkA].map (fun c => c.id)).Nodup ∧ wChunkN ∈ [wChunkN, wChunkA] ∧
      wChunkN.embedding = none) ∧
    (∀ r ∈ hybrid_search wDist wMatch wRank [0] "notice period" none 20
        [wChunkN, wChunkA] [wDoc],
      r.chunk_id = wChunkN.id → r.vector_rank = none ∧ r.vector_similarity = none) ∧
    (hybrid_search wDist wMatch wRank [0] "notice period" none 20
        [wChunkN, wChunkA] [wDoc]).any
      (fun r => decide (r.chunk_id = wChunkN.id) && r.keyword_rank.isSome) = true :=
  ⟨⟨by decide, by decide, rfl⟩,
    hybrid_search_null_embedding_no_vector wDist wMatch wRank [0] "notice period" none 20
      [wChunkN, wChunkA] [wDoc] (by decide) wChunkN (by decide) rfl,
    by decide⟩

theorem buildChildren_mem {docId parentId : Nat} {ts : List String} {c : Chunk} :
    ∀ {baseId baseIdx : Nat}, c ∈ buildChildren docId parentId baseId baseIdx ts →
      c.parent_chunk_id = some parentId ∧ c.chunk_type = "child" ∧
        c.document_id = docId := by
  induction ts with
  | nil => intro _ _ h; cases h
  | cons t ts ih =>
    intro baseId baseIdx h
    rw [buildChildren] at h
    rcases List.mem_cons.mp h with h1 | h2
    · subst h1; exact ⟨rfl, rfl, rfl⟩
    · exact ih h2

theorem buildParents_types {splitChild : String → List String} {docId : Nat}
    {ps : List String} {c : Chunk} :
    ∀ {baseId baseIdx : Nat}, c ∈ buildParents splitChild docId baseId baseIdx ps →
      c.document_id = docId ∧
      (c.chunk_type = "child" →
        ∃ pid, c.parent_chunk_id = some pid ∧
          ∃ p ∈ buildParents splitChild docId baseId baseIdx ps,
            p.id = pid ∧ p.chunk_type = "parent" ∧ p.document_id = docId) := by
  induction ps with
  | nil => intro _ _ h; cases h
  | cons ptxt rest ih =>
    intro baseId baseIdx h
    rw [buildParents] at h
    rcases List.mem_cons.mp h with h1 | h2
    · subst h1
      exact ⟨rfl, fun hct => by simp at hct⟩
    · rcases List.mem_append.mp h2 with hkid | hrec
      · obtain ⟨hpar, hct, hdoc⟩ := buildChildren_mem hkid
        refine ⟨hdoc, fun _ => ⟨baseId, hpar, ?_⟩⟩
        refine ⟨⟨baseId, docId, none, ptxt, none, "parent", baseIdx, none, baseId⟩,
          ?_, rfl, rfl, rfl⟩
        rw [buildParents]
        exact List.mem_cons_self _ _
      · obtain ⟨hdoc, hchild⟩ := ih hrec
        refine ⟨hdoc, fun hct => ?_⟩
        obtain ⟨pid, hpid, p, hp, hfields⟩ := hchild hct
        refine ⟨pid, hpid, p, ?_, hfields⟩
        rw [buildParents]
        exact List.mem_cons_of_mem _ (List.mem_append_right _ hp)

/-- C7: a document under 10,000 characters is ingested as exactly one chunk
of role parent with no children; at or above the threshold every child
chunk's parent reference resolves to a parent-role chunk of the same
document. -/
theorem chunkDocument_policy (splitParent splitChild : String → List String)
    (docId baseId : Nat) (text : String) :
    (text.length < 10000 →
      chunkDocument splitParent splitChild docId baseId text =
        [⟨baseId, docId, none, text, none, "parent", 0, none, baseId⟩]) ∧
    (10000 ≤ text.length →
      ∀ c ∈ chunkDocument splitParent splitChild docId baseId text,
        c.chunk_type = "child" →
        ∃ pid, c.parent_chunk_id = some pid ∧
          ∃ p ∈ chunkDocument splitParent splitChild docId baseId text,
            p.id = pid ∧ p.chunk_type = "parent" ∧ p.document_id = c.document_id) := by
  constructor
  · intro hlt
    rw [chunkDocument, if_pos hlt]
  · intro hge c hc hct
    rw [chunkDocument, if_neg (by omega)] at hc
    obtain ⟨hdoc, hchild⟩ := buildParents_types hc
    obtain ⟨pid, hpid, p, hp, hfields⟩ := hchild hct
    rw [chunkDocument, if_neg (by omega)]
    exact ⟨pid, hpid, p, hp, hfields.1, hfields.2.1, by rw [hfields.2.2, hdoc]⟩

/-- Length of the large-document witness text. -/
def wBigText : String := String.mk (List.replicate 10000 'a')

/-- Trivial splitter used by the chunking witness. -/
def wSplit1 : String → List String := fun s => [s]

theorem wBigText_length : wBigText.length = 10000 := by
  rw [wBigText]
  show (List.replicate 10000 'a').length = 10000
  exact List.length_replicate 10000 'a'

/-- Witness for C7: both the small-document and the threshold branch at
concrete documents. -/
theorem chunkDocument_policy_witness :
    (("short act text" : String).length < 10000 ∧
      chunkDocument wSplit1 wSplit1 10 1 "short act text" =
        [⟨1, 10, none, "short act text", none, "parent", 0, none, 1⟩]) ∧
    (10000 ≤ wBigText.length ∧
      ∀ c ∈ chunkDocument wSplit1 wSplit1 10 1 wBigText,
        c.chunk_type = "child" →
        ∃ pid, c.parent_chunk_id = some pid ∧
          ∃ p ∈ chunkDocument wSplit1 wSplit1 10 1 wBigText,
            p.id = pid ∧ p.chunk_type = "parent" ∧ p.document_id = c.document_id) :=
  ⟨⟨by decide, (chunkDocument_policy wSplit1 wSplit1 10 1 "short act text").1 (by decide)⟩,
    ⟨by rw [wBigText_length],
      (chunkDocument_policy wSplit1 wSplit1 10 1 wBigText).2 (by rw [wBigText_length])⟩⟩

/-- C9: with the proxy secret unset the route answers 500 "Proxy not
configured"; with a configured (non-empty) secret and a mismatched
`x-proxy-secret` header it answers 401 "Unauthorized"; in both cases the
request body is never read and no upstream fetch is made. -/
theorem POST_secret_gate (headerSecret : Option String) (body : Option ReqBody)
    (parseUrl : String → Option ParsedUrl) (fetchFn : String → Option FetchResult) :
    POST none headerSecret body parseUrl fetchFn =
      ⟨⟨500, some "Proxy not configured", none, none⟩, false, []⟩ ∧
    ∀ ps : String, ps ≠ "" → headerSecret ≠ some ps →
      POST (some ps) headerSecret body parseUrl fetchFn =
        ⟨⟨401, some "Unauthorized", none, none⟩, false, []⟩ := by
  refine ⟨rfl, fun ps hps hh => ?_⟩
  simp only [POST]
  rw [if_neg hps, if_pos hh]

/-- Witness for C9: a wrong header secret is rejected with 401. -/
theorem POST_secret_gate_witness :
    (("secret" : String) ≠ "" ∧ (some "wrong" : Option String) ≠ some "secret") ∧
    POST (some "secret") (some "wrong") none (fun _ => none) (fun _ => none) =
      ⟨⟨401, some "Unauthorized", none, none⟩, false, []⟩ :=
  ⟨⟨by decide, by decide⟩,
    (POST_secret_gate (some "wrong") none (fun _ => none) (fun _ => none)).2 "secret"
      (by decide) (by decide)⟩

theorem POST_authed (ps : String) (hps : ps ≠ "") (b : ReqBody)
    (parseUrl : String → Option ParsedUrl) (fetchFn : String → Option FetchResult) :
    POST (some ps) (some ps) (some b) parseUrl fetchFn =
      ⟨(handleBody parseUrl fetchFn b).1, true, (handleBody parseUrl fetchFn b).2⟩ := by
  simp only [POST]
  rw [if_neg hps, if_neg (fun hcon : some ps ≠ some ps => hcon rfl)]

theorem handleBody_fetch_blocked {parseUrl : String → Option ParsedUrl}
    {fetchFn : String → Option FetchResult} {url : String}
    (h : isAustliiUrl parseUrl url = false) :
    handleBody parseUrl fetchFn (ReqBody.fetchAct url) =
      (⟨403, some "URL not allowed", none, none⟩, []) := by
  simp only [handleBody]
  rw [if_neg (by simp [h])]

theorem handleBody_fetch_redirect_blocked {parseUrl : String → Option ParsedUrl}
    {fetchFn : String → Option FetchResult} {url : String} {resp : FetchResult}
    {fu : ParsedUrl} (h : isAustliiUrl parseUrl url = true)
    (hf : fetchFn url = some resp) (hp : parseUrl resp.url = some fu)
    (hh : fu.hostname ∉ ALLOWED_HOSTS) :
    handleBody parseUrl fetchFn (ReqBody.fetchAct url) =
      (⟨403, some "Redirect to non-AustLII host blocked", none, none⟩, [url]) := by
  simp only [handleBody]
  rw [if_pos h]
  simp only [hf, hp]
  rw [if_neg (by simpa using hh)]

theorem isAustliiUrl_iff {parseUrl : String → Option ParsedUrl} {url : String}
    {p : ParsedUrl} (hp : parseUrl url = some p) :
    isAustliiUrl parseUrl url = true ↔
      (p.protocol = "http:" ∨ p.protocol = "https:") ∧ p.hostname ∈ ALLOWED_HOSTS := by
  rw [isAustliiUrl]
  simp only [hp]
  simp [Bool.or_eq_true, Bool.and_eq_true, decide_eq_true_eq]

/-- C8: on a `fetch` action (past the secret gate) the upstream fetch
happens only when the URL parses as http/https with hostname in the
allowlist; otherwise the route answers 403 "URL not allowed" for every
fetch function, contacting no host; and when the post-redirect final URL
leaves the allowlist the route answers 403 "Redirect to non-AustLII host
blocked" instead of the fetched content. -/
theorem POST_fetch_ssrf_guard (ps : String) (hps : ps ≠ "") (url : String)
    (parseUrl : String → Option ParsedUrl) (fetchFn : String → Option FetchResult) :
    (isAustliiUrl parseUrl url = false →
      POST (some ps) (some ps) (some (ReqBody.fetchAct url)) parseUrl fetchFn =
        ⟨⟨403, some "URL not allowed", none, none⟩, true, []⟩) ∧
    ((POST (some ps) (some ps) (some (ReqBody.fetchAct url)) parseUrl fetchFn).fetched ≠
        [] → isAustliiUrl parseUrl url = true) ∧
    (∀ p, parseUrl url = some p →
      (isAustliiUrl parseUrl url = true ↔
        (p.protocol = "http:" ∨ p.protocol = "https:") ∧ p.hostname ∈ ALLOWED_HOSTS)) ∧
    (∀ resp fu, isAustliiUrl parseUrl url = true → fetchFn url = some resp →
      parseUrl resp.url = some fu → fu.hostname ∉ ALLOWED_HOSTS →
      POST (some ps) (some ps) (some (ReqBody.fetchAct url)) parseUrl fetchFn =
        ⟨⟨403, some "Redirect to non-AustLII host blocked", none, none⟩, true, [url]⟩) := by
  refine ⟨fun hno => ?_, fun hne => ?_, fun p hp => isAustliiUrl_iff hp,
    fun resp fu h hf hpu hh => ?_⟩
  · rw [POST_authed ps hps, handleBody_fetch_blocked hno]
  · by_cases h : isAustliiUrl parseUrl url = true
    · exact h
    · exfalso
      apply hne
      rw [POST_authed ps hps,
        handleBody_fetch_blocked (Bool.not_eq_true _ ▸ h : isAustliiUrl parseUrl url = false)]
  · rw [POST_authed ps hps, handleBody_fetch_redirect_blocked h hf hpu hh]

/-- Concrete URL parser used by the proxy witnesses. -/
def wParse : String → Option ParsedUrl := fun u =>
  if u = "https://evil.example/x" then some ⟨"https:", "evil.example"⟩
  else if u = "https://www.austlii.edu.au/au/cases" then
    some ⟨"https:", "www.austlii.edu.au"⟩
  else none

/-- Witness for C8: a non-AustLII URL is refused with no upstream contact. -/
theorem POST_fetch_ssrf_guard_witness :
    (("s" : String) ≠ "" ∧ isAustliiUrl wParse "https://evil.example/x" = false) ∧
    POST (some "s") (some "s") (some (ReqBody.fetchAct "https://evil.example/x")) wParse
        (fun _ => none) =
      ⟨⟨403, some "URL not allowed", none, none⟩, true, []⟩ :=
  ⟨⟨by decide, by decide⟩,
    (POST_fetch_ssrf_guard "s" (by decide) "https://evil.example/x" wParse
      (fun _ => none)).1 (by decide)⟩
